import Mathlib

/-!
Shallow embedding of the risk-allocation and position-lifecycle engine of
`accountB_copy_risk_engine.py` (plus the duplicate-OPEN handling of
`follower_executor.py` / `trade_copier.py`), together with theorems checking
the natural-language specification against it.

Machine floats are modelled as exact rationals (ℚ).  External venue calls
(equity, quotes, ATR, value-per-point, open-position scan, margin ceiling)
are modelled as fields of an explicit market snapshot, since the Python code
obtains them from the MetaTrader 5 adapter.
-/

namespace RiskEngine

/-- Configuration constants of `accountB_copy_risk_engine.py` (the module-level
ENV-derived constants `INITIAL_BALANCE`, `DAILY_LOSS_LIMIT`, ..., `LOT_STEP`,
`TRAIL_ATR_MULT`). -/
structure RiskCfg where
  initial_balance : ℚ
  daily_loss_limit : ℚ
  daily_loss_pct : ℚ
  overall_equity_floor : ℚ
  base_risk_pct : ℚ
  mdl_fraction_per_trade : ℚ
  ovr_fraction_per_trade : ℚ
  open_risk_fraction_of_daily : ℚ
  min_lot : ℚ
  max_lot : ℚ
  lot_step : ℚ
  trail_atr_mult : ℚ
  deriving DecidableEq, Repr

/-- Per-symbol static facts used by the engine (`mt5.symbol_info` fields
`point`, `digits`, `trade_stops_level`, `freeze_level`). -/
structure SymInfo where
  point : ℚ
  digits : ℕ
  stops_level : ℚ
  freeze_level : ℚ
  deriving DecidableEq, Repr

/-- A live quote (`mt5.symbol_info_tick`). -/
structure Tick where
  bid : ℚ
  ask : ℚ
  deriving DecidableEq, Repr

/-- Trade side (`mt5.ORDER_TYPE_BUY` / `mt5.ORDER_TYPE_SELL`, and the
`"buy"`/`"sell"` strings of master events). -/
inductive Side where
  | buy
  | sell
  deriving DecidableEq, Repr

/-- Engine mode (`ALNAFIE_MODE`: MIRROR, REVERSE or ADAPT). -/
inductive Mode where
  | mirror
  | reverse
  | adapt
  deriving DecidableEq, Repr

/-- Snapshot of everything `prepare_copy_trade` obtains from the venue
adapter at evaluation time. -/
structure Market where
  equity : ℚ
  info : SymInfo
  tick : Option Tick
  atr_points : ℚ
  vpp : ℚ
  open_risk : ℚ
  margin_max_lots : ℚ
  symbol_allowed : Bool
  in_session : Bool
  deriving DecidableEq, Repr

/-- Python `int(q)` on a float: truncation toward zero. -/
def pyTrunc (q : ℚ) : ℤ :=
  if 0 ≤ q then ⌊q⌋ else -⌊-q⌋

/-- Python `round` to an integer: banker's rounding (round half to even). -/
def bankers_round (q : ℚ) : ℤ :=
  let f := ⌊q⌋
  let r := q - f
  if r < 1/2 then f
  else if 1/2 < r then f + 1
  else if f % 2 = 0 then f else f + 1

/-- Python `round(q, nd)` on exact decimals. -/
def pyRound (q : ℚ) (nd : ℕ) : ℚ :=
  ((bankers_round (q * 10 ^ nd) : ℚ)) / 10 ^ nd

/-- Embedding of `round_lot`: floor the volume to the lot step, then clamp
into `[MIN_LOT, MAX_LOT]`. -/
def round_lot (cfg : RiskCfg) (volume : ℚ) : ℚ :=
  let steps : ℤ := ⌊volume / cfg.lot_step⌋
  let vol : ℚ := (steps : ℚ) * cfg.lot_step
  max cfg.min_lot (min cfg.max_lot vol)

/-- Embedding of `remaining_daily_loss`.  The Python code uses
`float("inf")` as the percent budget when `DAILY_LOSS_PCT` is not positive;
`min(abs_budget, inf) = abs_budget`, which the `if` below reproduces. -/
def remaining_daily_loss (cfg : RiskCfg) (start_equity eq : ℚ) : ℚ :=
  let budget : ℚ :=
    if 0 < cfg.daily_loss_pct then
      min cfg.daily_loss_limit (start_equity * cfg.daily_loss_pct)
    else cfg.daily_loss_limit
  let used : ℚ := max 0 (start_equity - eq)
  max 0 (budget - used)

/-- Embedding of `remaining_overall_loss`. -/
def remaining_overall_loss (cfg : RiskCfg) (eq : ℚ) : ℚ :=
  max 0 (eq - cfg.overall_equity_floor)

/-- Embedding of `compute_allowed_risk_usd`. -/
def compute_allowed_risk_usd (cfg : RiskCfg) (start_equity eq : ℚ) : ℚ :=
  let rem_daily := remaining_daily_loss cfg start_equity eq
  let rem_overall := remaining_overall_loss cfg eq
  let base := cfg.base_risk_pct * cfg.initial_balance
  let cap_mdl := cfg.mdl_fraction_per_trade * rem_daily
  let cap_ovr := cfg.ovr_fraction_per_trade * rem_overall
  max 0 (min base (min cap_mdl cap_ovr))

/-- Embedding of `synthetic_sl_points` (ATR-based synthetic stop distance;
`value_per_point` and `get_atr_points` are venue calls whose result is the
`atr_points` parameter). -/
def synthetic_sl_points (cfg : RiskCfg) (info : SymInfo) (atr_points : ℚ) : ℚ :=
  let min_stop_pts : ℚ := info.stops_level
  let syn_pts : ℤ := max (pyTrunc (cfg.trail_atr_mult * atr_points)) (pyTrunc min_stop_pts)
  ((max syn_pts (pyTrunc min_stop_pts) : ℤ) : ℚ)

/-- Embedding of `lots_for_risk` (`value_per_point` result passed in as `vpp`). -/
def lots_for_risk (cfg : RiskCfg) (vpp risk_usd sl_points : ℚ) : ℚ :=
  if sl_points ≤ 0 ∨ risk_usd ≤ 0 then 0
  else if vpp ≤ 0 then 0
  else round_lot cfg (risk_usd / (sl_points * vpp))

/-- Embedding of `can_add_more_risk` (`sum_open_risk_usd` result passed in as
`open_risk`). -/
def can_add_more_risk (cfg : RiskCfg) (start_equity eq open_risk additional : ℚ) : Bool :=
  let rem_daily := remaining_daily_loss cfg start_equity eq
  if rem_daily ≤ 0 then false
  else decide (open_risk + additional ≤ cfg.open_risk_fraction_of_daily * rem_daily)

/-- Embedding of `_adapt_multiplier`: outside ADAPT mode the multiplier is 1;
in ADAPT mode the env-derived minimum of the default/Asian/NFP multipliers
(abstracted as `raw`) is clamped into `[0.1, 2.0]`. -/
def adapt_mult (mode : Mode) (raw : ℚ) : ℚ :=
  if mode = Mode.adapt then max (1/10) (min raw 2) else 1

/-- Stop distance in points used by `prepare_copy_trade`: the master's stop
distance when a positive reference stop is supplied, else the synthetic
ATR-based distance. -/
def sl_points_of (cfg : RiskCfg) (info : SymInfo) (atr_points master_entry : ℚ)
    (master_sl : Option ℚ) : ℚ :=
  match master_sl with
  | some s => if 0 < s then |master_entry - s| / info.point
              else synthetic_sl_points cfg info atr_points
  | none   => synthetic_sl_points cfg info atr_points

/-- Embedding of the stop clamp of `prepare_copy_trade` (lines 416-429):
the minimum distance is `max(trade_stops_level, freeze_level)` points plus a
5-point cushion, applied only when that maximum is positive. -/
def clamp_sl (info : SymInfo) (side : Side) (price sl_price : ℚ) : ℚ :=
  let stops_pts : ℚ := info.stops_level
  let freeze_pts : ℚ := info.freeze_level
  let min_dist0 : ℚ := max stops_pts freeze_pts * info.point
  if 0 < min_dist0 then
    let min_dist := min_dist0 + 5 * info.point
    match side with
    | Side.buy => if price - min_dist < sl_price then price - min_dist else sl_price
    | Side.sell => if sl_price < price + min_dist then price + min_dist else sl_price
  else sl_price

/-- The order request assembled by `prepare_copy_trade` (the fields of the
`req` dict that carry trading content). -/
structure OrderReq where
  side : Side
  volume : ℚ
  price : ℚ
  sl : ℚ
  tp : ℚ
  deriving DecidableEq, Repr

/-- Result of one proposal evaluation.  `skip` is every `return None` path;
`hang` marks that the open-risk shrink loop failed to terminate within the
given fuel. -/
inductive PrepRes where
  | order (r : OrderReq)
  | skip
  | hang
  deriving DecidableEq, Repr

/-- Result of the open-risk shrink loop. -/
inductive FitRes where
  | fits (lots : ℚ)
  | reject
  | hang
  deriving DecidableEq, Repr

/-- Embedding of the `while fit_lots >= MIN_LOT` shrink loop of
`prepare_copy_trade` (lines 438-448), with explicit fuel since the source
loop has no a-priori bound. -/
def shrink_fit (cfg : RiskCfg) (start_equity eq open_risk sl_points vpp : ℚ) :
    ℕ → ℚ → FitRes
  | 0, _ => FitRes.hang
  | fuel + 1, fit_lots =>
    if cfg.min_lot ≤ fit_lots then
      if can_add_more_risk cfg start_equity eq open_risk (fit_lots * sl_points * vpp) then
        FitRes.fits fit_lots
      else
        shrink_fit cfg start_equity eq open_risk sl_points vpp fuel
          (round_lot cfg (fit_lots - cfg.lot_step))
    else FitRes.reject

/-- Final assembly of the order request in `prepare_copy_trade`: margin
ceiling, minimum-lot re-check, and the `req` dict. -/
def finish_order (cfg : RiskCfg) (mkt : Market) (eff_side : Side)
    (price sl_price tp_price lots : ℚ) : PrepRes :=
  let lots2 := if mkt.margin_max_lots < lots then mkt.margin_max_lots else lots
  if lots2 < cfg.min_lot then PrepRes.skip
  else PrepRes.order
    { side := eff_side
      volume := lots2
      price := price
      sl := pyRound sl_price mkt.info.digits
      tp := if tp_price = 0 then 0 else pyRound tp_price mkt.info.digits }

/-- Open-risk admission stage of `prepare_copy_trade` (lines 434-448):
admit as sized, or shrink in lot steps, or reject. -/
def admit_stage (cfg : RiskCfg) (start_equity : ℚ) (mkt : Market) (eff_side : Side)
    (sl_points price sl_price tp_price : ℚ) (fuel : ℕ) (lots : ℚ) : PrepRes :=
  let add_risk := lots * sl_points * mkt.vpp
  if can_add_more_risk cfg start_equity mkt.equity mkt.open_risk add_risk then
    finish_order cfg mkt eff_side price sl_price tp_price lots
  else
    match shrink_fit cfg start_equity mkt.equity mkt.open_risk sl_points mkt.vpp fuel lots with
    | FitRes.fits l => finish_order cfg mkt eff_side price sl_price tp_price l
    | FitRes.reject => PrepRes.skip
    | FitRes.hang => PrepRes.hang

/-- The mode transform of `prepare_copy_trade`: REVERSE inverts the side,
MIRROR and ADAPT keep it. -/
def side_transform (mode : Mode) (s : Side) : Side :=
  match mode, s with
  | Mode.reverse, Side.buy => Side.sell
  | Mode.reverse, Side.sell => Side.buy
  | _, s => s

/-- Live tradable price for a side: ask for a buy, bid for a sell. -/
def price_for (tk : Tick) (side : Side) : ℚ :=
  match side with
  | Side.buy => tk.ask
  | Side.sell => tk.bid

/-- Baseline stop price from the entry: entry minus the stop distance for a
buy, plus it for a sell. -/
def baseline_sl (side : Side) (entry sl_points pnt : ℚ) : ℚ :=
  match side with
  | Side.buy => entry - sl_points * pnt
  | Side.sell => entry + sl_points * pnt

/-- Target price: the master's target when positive, else 0 (no target). -/
def tp_of (mtp : Option ℚ) : ℚ :=
  match mtp with
  | some t => if 0 < t then t else 0
  | none => 0

/-- Embedding of `prepare_copy_trade`.  `ds_start` is the day state's
`start_equity`; `rawMult` abstracts the env-derived ADAPT multiplier before
clamping; `fuel` bounds the shrink loop.  The Python locals (`rem_daily`,
`risk_usd`, `sl_points`, `lots`, `eff_side`, `price`, `sl_price`,
`tp_price`) are inlined here; each is computed exactly once per use from the
same inputs, so the value flow is unchanged. -/
def prepare_copy_trade (cfg : RiskCfg) (mode : Mode) (rawMult ds_start : ℚ)
    (mkt : Market) (master_side : Side) (master_entry : ℚ)
    (master_sl master_tp : Option ℚ) (fuel : ℕ) : PrepRes :=
  if mkt.symbol_allowed = false then PrepRes.skip
  else if mkt.in_session = false then PrepRes.skip
  else if mkt.equity ≤ cfg.overall_equity_floor then PrepRes.skip
  else if remaining_daily_loss cfg ds_start mkt.equity ≤ 0 ∨
          remaining_overall_loss cfg mkt.equity ≤ 0 then PrepRes.skip
  else if compute_allowed_risk_usd cfg ds_start mkt.equity ≤ 0 then PrepRes.skip
  else if lots_for_risk cfg mkt.vpp
            (compute_allowed_risk_usd cfg ds_start mkt.equity * adapt_mult mode rawMult)
            (sl_points_of cfg mkt.info mkt.atr_points master_entry master_sl)
          < cfg.min_lot then PrepRes.skip
  else
    match mkt.tick with
    | none => PrepRes.skip
    | some tk =>
      admit_stage cfg ds_start mkt (side_transform mode master_side)
        (sl_points_of cfg mkt.info mkt.atr_points master_entry master_sl)
        (price_for tk (side_transform mode master_side))
        (clamp_sl mkt.info (side_transform mode master_side)
          (price_for tk (side_transform mode master_side))
          (baseline_sl (side_transform mode master_side) master_entry
            (sl_points_of cfg mkt.info mkt.atr_points master_entry master_sl)
            mkt.info.point))
        (tp_of master_tp) fuel
        (lots_for_risk cfg mkt.vpp
          (compute_allowed_risk_usd cfg ds_start mkt.equity * adapt_mult mode rawMult)
          (sl_points_of cfg mkt.info mkt.atr_points master_entry master_sl))

/-- A managed position as seen by `manage_positions_loop` (the fields of the
MT5 position tuple that the lifecycle code reads; `is_copy` stands for
`pos.comment == "B_COPY_RISK"`). -/
structure MPos where
  ptype : Side
  price_open : ℚ
  sl : ℚ
  tp : ℚ
  volume : ℚ
  is_copy : Bool
  deriving DecidableEq, Repr

/-- Market snapshot consumed by one lifecycle tick. -/
structure MMkt where
  info : SymInfo
  bid : ℚ
  ask : ℚ
  atr_points : ℚ
  deriving DecidableEq, Repr

/-- Embedding of `rr_for_position`: unrealized reward in points divided by
the stop distance in points. -/
def rr_for_position (cfg : RiskCfg) (mkt : MMkt) (pos : MPos) : ℚ :=
  let point := mkt.info.point
  let sl_pts :=
    if pos.sl = 0 then synthetic_sl_points cfg mkt.info mkt.atr_points
    else |pos.price_open - pos.sl| / point
  if sl_pts ≤ 0 then 0
  else
    let cur := match pos.ptype with | Side.buy => mkt.bid | Side.sell => mkt.ask
    let r_pts :=
      match pos.ptype with
      | Side.buy => (cur - pos.price_open) / point
      | Side.sell => (pos.price_open - cur) / point
    r_pts / sl_pts

/-- The stop value written by `move_to_be_plus` (the `sl` field of the SLTP
request it sends). -/
def be_plus_write (mkt : MMkt) (pos : MPos) : ℚ :=
  let spread := |mkt.ask - mkt.bid|
  let new_sl :=
    match pos.ptype with
    | Side.buy => min (pos.price_open + spread) mkt.bid
    | Side.sell => max (pos.price_open - spread) mkt.ask
  pyRound new_sl mkt.info.digits

/-- The volume closed by `partial_close`: half the position rounded to the
lot step (but at least the minimum lot), unless that is non-positive or
would close the whole position, in which case nothing is closed. -/
def close_vol (cfg : RiskCfg) (pos : MPos) (fraction : ℚ) : ℚ :=
  let vol := max cfg.min_lot (round_lot cfg (pos.volume * fraction))
  if vol ≤ 0 ∨ pos.volume ≤ vol then 0 else vol

/-- The stop write attempted by `trail_atr`: `none` when the ATR is
unavailable or the candidate stop does not tighten the (snapshot) stop. -/
def trail_write (cfg : RiskCfg) (mkt : MMkt) (pos : MPos) : Option ℚ :=
  let last := match pos.ptype with | Side.buy => mkt.bid | Side.sell => mkt.ask
  if mkt.atr_points ≤ 0 then none
  else
    let offset := mkt.atr_points * cfg.trail_atr_mult * mkt.info.point
    let new_sl :=
      match pos.ptype with
      | Side.buy => last - offset
      | Side.sell => last + offset
    if pos.sl ≠ 0 ∧ ((pos.ptype = Side.buy ∧ new_sl ≤ pos.sl) ∨
                     (pos.ptype = Side.sell ∧ pos.sl ≤ new_sl)) then none
    else some (pyRound new_sl mkt.info.digits)

/-- One pass of the body of `manage_positions_loop` over a single position.
The Python loop takes a snapshot `pos` of the broker position and decides
every step from that one snapshot, while its order_send calls mutate the
broker state; the result is the broker position after the tick, the volume
closed by the tick, and the list of stop prices written during the tick.
Note that `trail_atr` compares against the stale snapshot stop, so when
breakeven arming fired and the trail then skips, the breakeven stop is what
remains on the broker. -/
def manage_tick (cfg : RiskCfg) (mkt : MMkt) (pos : MPos) : MPos × ℚ × List ℚ :=
  if pos.is_copy = false then (pos, 0, [])
  else
    let rr := rr_for_position cfg mkt pos
    if 1 ≤ rr ∧ pos.sl ≠ 0 ∧ cfg.min_lot < pos.volume then
      let w1 := be_plus_write mkt pos
      let c := close_vol cfg pos (1/2)
      let tw := trail_write cfg mkt pos
      let sl' := match tw with | some w => w | none => w1
      ({ pos with sl := sl', volume := pos.volume - c }, c, w1 :: tw.toList)
    else
      let tw := trail_write cfg mkt pos
      let sl' := match tw with | some w => w | none => pos.sl
      ({ pos with sl := sl' }, 0, tw.toList)

/-- Association-list model of the `MASTER2FOLLOW` dict of
`follower_executor.py` (master ticket to follower ticket). -/
def map_get (m : List (ℕ × ℕ)) (k : ℕ) : Option ℕ :=
  match m with
  | [] => none
  | (k', v) :: rest => if k' = k then some v else map_get rest k

/-- Python dict assignment `MASTER2FOLLOW[k] = v`. -/
def map_set (m : List (ℕ × ℕ)) (k v : ℕ) : List (ℕ × ℕ) :=
  match m with
  | [] => [(k, v)]
  | (k', v') :: rest => if k' = k then (k, v) :: rest else (k', v') :: map_set rest k v

/-- Embedding of `on_open` of `follower_executor.py`.  `prep` is the result
of the `prepare_copy_trade` call for the event; `linked` is the follower
ticket found by the post-fill position scan (`none` when the order was not
filled or no matching position was found).  The function returns the order
request sent to the venue (if any) and the updated master-to-follower map.
The source applies no duplicate check on the incoming ticket. -/
def on_open (mapping : List (ℕ × ℕ)) (ticket : ℕ) (prep : PrepRes)
    (linked : Option ℕ) : Option OrderReq × List (ℕ × ℕ) :=
  match prep with
  | PrepRes.order r =>
    (some r, match linked with
             | some t => map_set mapping ticket t
             | none => mapping)
  | _ => (none, mapping)

/-! Concrete instances used by counterexamples and witnesses.  They follow
the module defaults of `accountB_copy_risk_engine.py` except where noted. -/

/-- Default configuration with a tiny per-trade base risk (0.01%), used to
exercise the minimum-lot clamp. -/
def cfgTiny : RiskCfg :=
  { initial_balance := 10000, daily_loss_limit := 500, daily_loss_pct := 0
    overall_equity_floor := 9000, base_risk_pct := 1/10000
    mdl_fraction_per_trade := 1/5, ovr_fraction_per_trade := 1/5
    open_risk_fraction_of_daily := 1/2, min_lot := 1/100, max_lot := 5
    lot_step := 1/100, trail_atr_mult := 3/2 }

/-- Default configuration (0.8% base risk, the module default). -/
def cfgStd : RiskCfg := { cfgTiny with base_risk_pct := 8/1000 }

/-- Configuration with 0.1% base risk, for the shrink-loop scenario. -/
def cfgC2 : RiskCfg := { cfgTiny with base_risk_pct := 1/1000 }

/-- Configuration with 0.02% base risk, for the round-up scenario. -/
def cfgC7 : RiskCfg := { cfgTiny with base_risk_pct := 2/10000 }

/-- Configuration with a 10% daily percent cap enabled. -/
def cfgPct : RiskCfg := { cfgTiny with daily_loss_pct := 1/10 }

/-- A gold-like symbol: point 0.01, two digits, no broker stop distances. -/
def infoBase : SymInfo := { point := 1/100, digits := 2, stops_level := 0, freeze_level := 0 }

/-- Same symbol but with a 10-point broker stop distance and an 8-point
freeze distance. -/
def infoStops : SymInfo := { infoBase with stops_level := 10, freeze_level := 8 }

/-- Benign market snapshot: flat day, no open risk, ample margin. -/
def mktBase : Market :=
  { equity := 10000, info := infoBase, tick := some { bid := 199998/100, ask := 2000 }
    atr_points := 0, vpp := 1, open_risk := 0, margin_max_lots := 5
    symbol_allowed := true, in_session := true }

/-- Market snapshot with 245 USD of open risk already reserved. -/
def mktC2 : Market := { mktBase with open_risk := 245 }

/-- Market snapshot on the symbol with broker stop distances. -/
def mktStops : Market := { mktBase with info := infoStops }

/-- Lifecycle market snapshot: bid 2010, ask 2010.02, ATR 50 points. -/
def mmktLife : MMkt := { info := infoBase, bid := 2010, ask := 201002/100, atr_points := 50 }

/-- A managed long position: entry 2000, stop 1990, one lot. -/
def posLife : MPos :=
  { ptype := Side.buy, price_open := 2000, sl := 1990, tp := 0, volume := 1, is_copy := true }

/-- The spec's remaining-daily formula, for comparison with the code.
Modelled from the spec: `remainingDaily = max(0, min(dailyAbsoluteCap,
dailyPercentCap·startEquity) − max(0, startEquity − currentEquity))`,
taken literally (no special case for a disabled percent cap). -/
def remaining_daily_spec (cfg : RiskCfg) (start_equity eq : ℚ) : ℚ :=
  max 0 (min cfg.daily_loss_limit (cfg.daily_loss_pct * start_equity)
          - max 0 (start_equity - eq))

/-- A stop move from `old` to `new` is non-loosening in the protective
direction: upward for a long position, downward for a short one. -/
def tightens (side : Side) (old new : ℚ) : Prop :=
  match side with
  | Side.buy => old ≤ new
  | Side.sell => new ≤ old

/-! Arithmetic helper lemmas about the embedded primitives. -/

theorem buy_ne_sell : (Side.buy = Side.sell) = False := by simp

theorem sell_ne_buy : (Side.sell = Side.buy) = False := by simp

theorem bankers_round_intCast (n : ℤ) : bankers_round (n : ℚ) = n := by
  simp only [bankers_round, Int.floor_intCast]
  norm_num

theorem le_bankers_round {n : ℤ} {q : ℚ} (h : (n : ℚ) ≤ q) : n ≤ bankers_round q := by
  simp only [bankers_round]
  have hf : n ≤ ⌊q⌋ := Int.le_floor.mpr h
  split_ifs <;> omega

theorem bankers_round_le {n : ℤ} {q : ℚ} (h : q ≤ (n : ℚ)) : bankers_round q ≤ n := by
  simp only [bankers_round]
  have hf : ⌊q⌋ ≤ n := by
    have := Int.floor_le_floor h
    rwa [Int.floor_intCast] at this
  have hr : (1/2 : ℚ) ≤ q - ⌊q⌋ → ⌊q⌋ + 1 ≤ n := by
    intro h2
    have h3 : ((⌊q⌋ : ℚ)) < n := by linarith
    exact_mod_cast Int.add_one_le_iff.mpr (by exact_mod_cast h3)
  split_ifs with h1 h2 h3
  · exact hf
  · exact hr h2.le
  · exact hf
  · exact hr (not_lt.mp h1)

theorem pyRound_grid (k : ℤ) (d : ℕ) : pyRound ((k : ℚ) / 10 ^ d) d = (k : ℚ) / 10 ^ d := by
  unfold pyRound
  rw [div_mul_cancel₀ _ (by positivity : ((10 : ℚ) ^ d) ≠ 0), bankers_round_intCast]

theorem pyRound_le_grid {q : ℚ} {k : ℤ} {d : ℕ} (h : q ≤ (k : ℚ) / 10 ^ d) :
    pyRound q d ≤ (k : ℚ) / 10 ^ d := by
  unfold pyRound
  have hd : (0 : ℚ) < 10 ^ d := by positivity
  have h1 : q * 10 ^ d ≤ (k : ℚ) := (le_div_iff hd).mp h
  have h2 : bankers_round (q * 10 ^ d) ≤ k := bankers_round_le h1
  exact (div_le_div_right hd).mpr (by exact_mod_cast h2)

theorem grid_le_pyRound {q : ℚ} {k : ℤ} {d : ℕ} (h : (k : ℚ) / 10 ^ d ≤ q) :
    (k : ℚ) / 10 ^ d ≤ pyRound q d := by
  unfold pyRound
  have hd : (0 : ℚ) < 10 ^ d := by positivity
  have h1 : (k : ℚ) ≤ q * 10 ^ d := by
    rw [div_le_iff hd] at h
    exact h
  have h2 : k ≤ bankers_round (q * 10 ^ d) := le_bankers_round h1
  exact (div_le_div_right hd).mpr (by exact_mod_cast h2)

theorem floor_mul_step_le {v step : ℚ} (h : 0 < step) : (⌊v / step⌋ : ℚ) * step ≤ v := by
  have h1 : (⌊v / step⌋ : ℚ) ≤ v / step := Int.floor_le _
  calc (⌊v / step⌋ : ℚ) * step ≤ (v / step) * step := mul_le_mul_of_nonneg_right h1 h.le
    _ = v := div_mul_cancel₀ v h.ne'

theorem round_lot_le_max (cfg : RiskCfg) (h : 0 < cfg.lot_step) (v : ℚ) :
    round_lot cfg v ≤ max cfg.min_lot v := by
  simp only [round_lot]
  exact max_le_max le_rfl ((min_le_right _ _).trans (floor_mul_step_le h))

theorem round_lot_le (cfg : RiskCfg) (hstep : 0 < cfg.lot_step) {v : ℚ}
    (hv : cfg.min_lot ≤ v) : round_lot cfg v ≤ v := by
  have h := round_lot_le_max cfg hstep v
  rwa [max_eq_right hv] at h

theorem min_lot_le_round_lot (cfg : RiskCfg) (v : ℚ) : cfg.min_lot ≤ round_lot cfg v :=
  le_max_left _ _

theorem shrink_fit_fits_le (cfg : RiskCfg) (s e o slp vpp : ℚ)
    (hstep : 0 < cfg.lot_step) :
    ∀ (fuel : ℕ) (x y : ℚ), shrink_fit cfg s e o slp vpp fuel x = FitRes.fits y →
      y ≤ max cfg.min_lot x := by
  intro fuel
  induction fuel with
  | zero => intro x y h; exact FitRes.noConfusion h
  | succ n ih =>
    intro x y h
    simp only [shrink_fit] at h
    split at h
    · split at h
      · injection h with h'
        subst h'
        exact le_max_right _ _
      · have h2 := ih _ _ h
        refine h2.trans (max_le (le_max_left _ _) ?_)
        have h3 : round_lot cfg (x - cfg.lot_step) ≤ max cfg.min_lot (x - cfg.lot_step) :=
          round_lot_le_max cfg hstep _
        exact h3.trans (max_le_max le_rfl (by linarith))
    · exact FitRes.noConfusion h

theorem finish_order_volume_le (cfg : RiskCfg) (mkt : Market) (es : Side)
    (p sp tpp lots : ℚ) (r : OrderReq)
    (h : finish_order cfg mkt es p sp tpp lots = PrepRes.order r) : r.volume ≤ lots := by
  simp only [finish_order] at h
  split at h
  next hm =>
    split at h
    next => exact PrepRes.noConfusion h
    next =>
      injection h with h'
      subst h'
      exact le_of_lt hm
  next hm =>
    split at h
    next => exact PrepRes.noConfusion h
    next =>
      injection h with h'
      subst h'
      exact le_rfl

theorem admit_stage_volume_le (cfg : RiskCfg) (ds : ℚ) (mkt : Market) (es : Side)
    (slp p sp tpp : ℚ) (fuel : ℕ) (lots : ℚ) (r : OrderReq)
    (hstep : 0 < cfg.lot_step) (hL : cfg.min_lot ≤ lots)
    (h : admit_stage cfg ds mkt es slp p sp tpp fuel lots = PrepRes.order r) :
    r.volume ≤ lots := by
  simp only [admit_stage] at h
  split at h
  · exact finish_order_volume_le cfg mkt es p sp tpp lots r h
  · split at h
    · next l heq =>
      have h1 : l ≤ max cfg.min_lot lots :=
        shrink_fit_fits_le cfg ds mkt.equity mkt.open_risk slp mkt.vpp hstep fuel lots l heq
      rw [max_eq_right hL] at h1
      exact (finish_order_volume_le cfg mkt es p sp tpp l r h).trans h1
    · exact PrepRes.noConfusion h
    · exact PrepRes.noConfusion h

set_option maxHeartbeats 1600000 in
/-- C1 (amended).  For every proposal that `prepare_copy_trade` turns into an
order, the order's currency risk (quantity times stop-distance-in-points times
value-per-point-per-unit) is at most the allocator's allowed-risk figure,
PROVIDED the allowed risk covers at least one minimum lot at that stop
distance.  (Without this proviso the claim is false: `round_lot` clamps an
undersized quantity up to `MIN_LOT`, which can push the risk above the cap —
see the counterexample.)  Quantization never increases risk beyond the cap in
this regime because the quantity is floored to the lot step and every later
stage (open-risk shrink, margin ceiling) only reduces it. -/
theorem C1_sized_risk_within_allowed (cfg : RiskCfg) (mode : Mode)
    (rawMult ds : ℚ) (mkt : Market) (mside : Side) (entry : ℚ)
    (msl mtp : Option ℚ) (fuel : ℕ) (r : OrderReq)
    (hstep : 0 < cfg.lot_step) (hmin : 0 < cfg.min_lot)
    (hfit : cfg.min_lot * (sl_points_of cfg mkt.info mkt.atr_points entry msl * mkt.vpp)
              ≤ compute_allowed_risk_usd cfg ds mkt.equity * adapt_mult mode rawMult)
    (h : prepare_copy_trade cfg mode rawMult ds mkt mside entry msl mtp fuel
           = PrepRes.order r) :
    r.volume * (sl_points_of cfg mkt.info mkt.atr_points entry msl * mkt.vpp)
      ≤ compute_allowed_risk_usd cfg ds mkt.equity * adapt_mult mode rawMult := by
  unfold prepare_copy_trade at h
  split at h
  next => exact PrepRes.noConfusion h
  next =>
    split at h
    next => exact PrepRes.noConfusion h
    next =>
      split at h
      next => exact PrepRes.noConfusion h
      next =>
        split at h
        next => exact PrepRes.noConfusion h
        next =>
          split at h
          next => exact PrepRes.noConfusion h
          next =>
            split at h
            next hlots =>
              exact PrepRes.noConfusion h
            next hlots =>
              split at h
              next => exact PrepRes.noConfusion h
              next tk htk =>
                -- abbreviations for the main quantities
                set slp := sl_points_of cfg mkt.info mkt.atr_points entry msl with hslp
                set R := compute_allowed_risk_usd cfg ds mkt.equity * adapt_mult mode rawMult
                  with hR
                rw [not_lt] at hlots
                -- the sizing branch of lots_for_risk must be the non-degenerate one
                by_cases h1 : slp ≤ 0 ∨ R ≤ 0
                · rw [lots_for_risk, if_pos h1] at hlots
                  exact absurd (hmin.trans_le hlots) (lt_irrefl 0)
                · by_cases h2 : mkt.vpp ≤ 0
                  · rw [lots_for_risk, if_neg h1, if_pos h2] at hlots
                    exact absurd (hmin.trans_le hlots) (lt_irrefl 0)
                  · push_neg at h1 h2
                    have hslp0 : 0 < slp := h1.1
                    have hvpp : 0 < mkt.vpp := h2
                    have hprod : 0 < slp * mkt.vpp := mul_pos hslp0 hvpp
                    have hlfr : lots_for_risk cfg mkt.vpp R slp
                        = round_lot cfg (R / (slp * mkt.vpp)) := by
                      rw [lots_for_risk, if_neg (by push_neg; exact ⟨h1.1, h1.2⟩),
                        if_neg (not_le.mpr hvpp)]
                    have hraw : cfg.min_lot ≤ R / (slp * mkt.vpp) :=
                      (le_div_iff hprod).mpr hfit
                    have hlotsle : lots_for_risk cfg mkt.vpp R slp ≤ R / (slp * mkt.vpp) := by
                      rw [hlfr]
                      exact round_lot_le cfg hstep hraw
                    have hvol : r.volume ≤ lots_for_risk cfg mkt.vpp R slp :=
                      admit_stage_volume_le cfg ds mkt _ slp _ _ _ fuel _ r hstep hlots h
                    have hfin : r.volume ≤ R / (slp * mkt.vpp) := hvol.trans hlotsle
                    calc r.volume * (slp * mkt.vpp)
                        ≤ (R / (slp * mkt.vpp)) * (slp * mkt.vpp) :=
                          mul_le_mul_of_nonneg_right hfin hprod.le
                      _ = R := div_mul_cancel₀ R hprod.ne'


/-- C1 counterexample.  With default lot bounds, 0.01% base risk (allowed
risk 1 USD) and a 1000-point stop at value-per-point 1, the raw quantity
0.001 floors to 0 and `round_lot` clamps it up to the minimum lot 0.01; the
resulting order carries 0.01·1000·1 = 10 USD of risk, ten times the
allocator's allowed-risk figure, and no stage re-validates it. -/
theorem C1_risk_cap_cex :
    prepare_copy_trade cfgTiny Mode.mirror 1 10000 mktBase Side.buy 2000 (some 1990) none 1
      = PrepRes.order { side := Side.buy, volume := 1/100, price := 2000, sl := 1990, tp := 0 } ∧
    compute_allowed_risk_usd cfgTiny 10000 10000 * adapt_mult Mode.mirror 1
      < (1/100 : ℚ) *
          (sl_points_of cfgTiny mktBase.info mktBase.atr_points 2000 (some 1990) * mktBase.vpp) := by
  constructor
  · norm_num [prepare_copy_trade, admit_stage, finish_order, shrink_fit, can_add_more_risk,
      remaining_daily_loss, compute_allowed_risk_usd, remaining_overall_loss, lots_for_risk,
      round_lot, sl_points_of, clamp_sl, synthetic_sl_points, pyTrunc, adapt_mult,
      side_transform, price_for, baseline_sl, tp_of, pyRound, bankers_round,
      cfgTiny, cfgStd, mktBase, infoBase, min_def, max_def]
  · norm_num [prepare_copy_trade, admit_stage, finish_order, shrink_fit, can_add_more_risk,
      remaining_daily_loss, compute_allowed_risk_usd, remaining_overall_loss, lots_for_risk,
      round_lot, sl_points_of, clamp_sl, synthetic_sl_points, pyTrunc, adapt_mult,
      side_transform, price_for, baseline_sl, tp_of, pyRound, bankers_round,
      cfgTiny, cfgStd, mktBase, infoBase, min_def, max_def]

/-- Witness for the amended C1 bound: with the default 0.8% base risk the
allowed risk is 80 USD, the sized order takes 0.08 lots and its risk is
exactly 80 USD, within the cap. -/
theorem C1_sized_risk_within_allowed_witness :
    OrderReq.volume { side := Side.buy, volume := 2/25, price := 2000, sl := 1990, tp := 0 } *
        (sl_points_of cfgStd mktBase.info mktBase.atr_points 2000 (some 1990) * mktBase.vpp)
      ≤ compute_allowed_risk_usd cfgStd 10000 10000 * adapt_mult Mode.mirror 1 :=
  C1_sized_risk_within_allowed cfgStd Mode.mirror 1 10000 mktBase Side.buy 2000 (some 1990)
    none 1 { side := Side.buy, volume := 2/25, price := 2000, sl := 1990, tp := 0 }
    (by norm_num [prepare_copy_trade, admit_stage, finish_order, shrink_fit, can_add_more_risk,
      remaining_daily_loss, compute_allowed_risk_usd, remaining_overall_loss, lots_for_risk,
      round_lot, sl_points_of, clamp_sl, synthetic_sl_points, pyTrunc, adapt_mult,
      side_transform, price_for, baseline_sl, tp_of, pyRound, bankers_round,
      cfgTiny, cfgStd, mktBase, infoBase, min_def, max_def]) (by norm_num [prepare_copy_trade, admit_stage, finish_order, shrink_fit, can_add_more_risk,
      remaining_daily_loss, compute_allowed_risk_usd, remaining_overall_loss, lots_for_risk,
      round_lot, sl_points_of, clamp_sl, synthetic_sl_points, pyTrunc, adapt_mult,
      side_transform, price_for, baseline_sl, tp_of, pyRound, bankers_round,
      cfgTiny, cfgStd, mktBase, infoBase, min_def, max_def]) (by norm_num [prepare_copy_trade, admit_stage, finish_order, shrink_fit, can_add_more_risk,
      remaining_daily_loss, compute_allowed_risk_usd, remaining_overall_loss, lots_for_risk,
      round_lot, sl_points_of, clamp_sl, synthetic_sl_points, pyTrunc, adapt_mult,
      side_transform, price_for, baseline_sl, tp_of, pyRound, bankers_round,
      cfgTiny, cfgStd, mktBase, infoBase, min_def, max_def]) (by norm_num [prepare_copy_trade, admit_stage, finish_order, shrink_fit, can_add_more_risk,
      remaining_daily_loss, compute_allowed_risk_usd, remaining_overall_loss, lots_for_risk,
      round_lot, sl_points_of, clamp_sl, synthetic_sl_points, pyTrunc, adapt_mult,
      side_transform, price_for, baseline_sl, tp_of, pyRound, bankers_round,
      cfgTiny, cfgStd, mktBase, infoBase, min_def, max_def])

/-- When the open-risk check fails at the initial size and the shrink loop
runs out of candidates without fitting, the admission stage reports the
non-termination marker. -/
theorem admit_stage_hang (cfg : RiskCfg) (ds : ℚ) (mkt : Market) (es : Side)
    (slp p sp tpp : ℚ) (fuel : ℕ) (lots : ℚ)
    (hc : can_add_more_risk cfg ds mkt.equity mkt.open_risk (lots * slp * mkt.vpp) = false)
    (hs : shrink_fit cfg ds mkt.equity mkt.open_risk slp mkt.vpp fuel lots = FitRes.hang) :
    admit_stage cfg ds mkt es slp p sp tpp fuel lots = PrepRes.hang := by
  have hcond : ¬(can_add_more_risk cfg ds mkt.equity mkt.open_risk (lots * slp * mkt.vpp)
      = true) := by
    simp [hc]
  simp only [admit_stage]
  rw [if_neg hcond, hs]

/-- C2.  When not even the minimum lot fits under the open-risk cap, the
shrink loop never terminates: `round_lot` clamps the decremented size back up
to `MIN_LOT`, so `fit_lots` is stuck at the minimum lot forever and the
reject branch of the loop is unreachable.  Concretely: allowed risk 10 USD,
1000-point stop, value-per-point 1 (so the proposal is sized at the minimum
lot, risk 10 USD), open risk already 245 of the 250 USD cap.  For every fuel
bound the evaluation is still running — it neither returns an order nor
rejects the proposal. -/
theorem C2_shrink_loop_never_rejects (fuel : ℕ) :
    prepare_copy_trade cfgC2 Mode.mirror 1 10000 mktC2 Side.buy 2000 (some 1990) none fuel
      = PrepRes.hang := by
  have hstep : ∀ n : ℕ,
      shrink_fit cfgC2 10000 10000 245 1000 1 (n + 1) (1/100)
        = shrink_fit cfgC2 10000 10000 245 1000 1 n (1/100) := by
    intro n
    simp only [shrink_fit]
    norm_num [can_add_more_risk, remaining_daily_loss, round_lot, cfgC2, cfgTiny,
      min_def, max_def]
  have hsh : ∀ n : ℕ,
      shrink_fit cfgC2 10000 10000 245 1000 1 n (1/100) = FitRes.hang := by
    intro n
    induction n with
    | zero => rfl
    | succ k ih =>
      rw [hstep k]
      exact ih
  have hpre : prepare_copy_trade cfgC2 Mode.mirror 1 10000 mktC2 Side.buy 2000 (some 1990)
      none fuel = admit_stage cfgC2 10000 mktC2 Side.buy 1000 2000 1990 0 fuel (1/100) := by
    norm_num [prepare_copy_trade, can_add_more_risk, remaining_daily_loss,
      compute_allowed_risk_usd, remaining_overall_loss, lots_for_risk, round_lot,
      sl_points_of, clamp_sl, synthetic_sl_points, pyTrunc, adapt_mult, side_transform,
      price_for, baseline_sl, tp_of, cfgC2, cfgTiny, mktC2, mktBase, infoBase,
      min_def, max_def]
  have hc : can_add_more_risk cfgC2 10000 10000 245 ((1/100) * 1000 * 1) = false := by
    norm_num [can_add_more_risk, remaining_daily_loss, cfgC2, cfgTiny, min_def, max_def]
  exact hpre.trans
    (admit_stage_hang cfgC2 10000 mktC2 Side.buy 1000 2000 1990 0 fuel (1/100) hc (hsh fuel))


/-- C3 evaluation at the failing input.  Long position (entry 2000, stop
1990, 1 lot) with constant quotes bid 2010 / ask 2010.02 and ATR 50 points:
the reward-to-risk ratio is exactly 1.0, so the first tick closes 50% (0.5
lots) and trails the stop to 2009.25.  A second tick with the identical
market inputs closes ANOTHER 50% of the remainder (0.25 lots) and rewrites
the stop back down to the breakeven value 2000.02 — the tick is not
idempotent: the code has no armed flag, so breakeven arming and the partial
close re-fire on every tick while the ratio stays ≥ 1. -/
theorem C3_second_tick_not_idempotent :
    (manage_tick cfgTiny mmktLife posLife).2.1 = 1/2 ∧
    (manage_tick cfgTiny mmktLife posLife).1.sl = 8037/4 ∧
    (manage_tick cfgTiny mmktLife (manage_tick cfgTiny mmktLife posLife).1).2.1 = 1/4 ∧
    (manage_tick cfgTiny mmktLife (manage_tick cfgTiny mmktLife posLife).1).1.sl
      = 100001/50 := by
  norm_num [manage_tick, rr_for_position, be_plus_write, close_vol, trail_write,
    synthetic_sl_points, pyTrunc, round_lot, pyRound, bankers_round,
    cfgTiny, mmktLife, posLife, infoBase, min_def, max_def, buy_ne_sell, sell_ne_buy,
    abs_of_nonneg, Int.fract]

/-- C4 counterexample.  On the second lifecycle tick of the C3 scenario the
position's current stop is 2009.25 (set by the trail on the first tick), yet
the tick writes the single stop price 2000.02 (the unconditional breakeven
re-arm; the trail then skips because its guard compares against the stale
snapshot), so a long position's stop is loosened by 9.23. -/
theorem C4_beplus_loosens_cex :
    (manage_tick cfgTiny mmktLife posLife).1.ptype = Side.buy ∧
    (manage_tick cfgTiny mmktLife posLife).1.sl = 8037/4 ∧
    (manage_tick cfgTiny mmktLife (manage_tick cfgTiny mmktLife posLife).1).2.2
      = [100001/50] ∧
    (100001/50 : ℚ) < 8037/4 := by
  norm_num [manage_tick, rr_for_position, be_plus_write, close_vol, trail_write,
    synthetic_sl_points, pyTrunc, round_lot, pyRound, bankers_round,
    cfgTiny, mmktLife, posLife, infoBase, min_def, max_def, buy_ne_sell, sell_ne_buy,
    abs_of_nonneg, Int.fract]

/-- C4 (amended).  The ATR-trailing component alone is monotone: whenever
`trail_atr` writes a stop for a position that already has one (on the
decimal grid of the symbol), the written stop never loosens the stop it was
compared against — it only tightens (breakeven arming, by contrast,
rewrites the stop unconditionally and can loosen it, per the
counterexample). -/
theorem C4_trail_write_never_loosens (cfg : RiskCfg) (mkt : MMkt) (pos : MPos) (w : ℚ)
    (k : ℤ) (hgrid : pos.sl = (k : ℚ) / 10 ^ mkt.info.digits) (hsl : pos.sl ≠ 0)
    (hw : trail_write cfg mkt pos = some w) :
    tightens pos.ptype pos.sl w := by
  simp only [trail_write] at hw
  split at hw
  next => exact Option.noConfusion hw
  next hatr =>
    split at hw
    next => exact Option.noConfusion hw
    next hguard =>
      injection hw with hw'
      subst hw'
      have hnor := not_or.mp (not_and.mp hguard hsl)
      cases hpt : pos.ptype with
      | buy =>
        have hlt : pos.sl < mkt.bid - mkt.atr_points * cfg.trail_atr_mult * mkt.info.point := by
          by_contra hle
          refine hnor.1 ⟨hpt, ?_⟩
          rw [hpt]
          exact not_lt.mp hle
        simp only [tightens, hpt]
        rw [hgrid]
        exact grid_le_pyRound (le_of_lt (hgrid ▸ hlt))
      | sell =>
        have hlt : mkt.ask + mkt.atr_points * cfg.trail_atr_mult * mkt.info.point
            < pos.sl := by
          by_contra hle
          refine hnor.2 ⟨hpt, ?_⟩
          rw [hpt]
          exact not_lt.mp hle
        simp only [tightens, hpt]
        rw [hgrid]
        exact pyRound_le_grid (le_of_lt (hgrid ▸ hlt))

/-- Witness for the amended C4: on the first tick of the C3 scenario the
trail writes 2009.25, which tightens the long position's stop 1990. -/
theorem C4_trail_write_never_loosens_witness :
    tightens posLife.ptype posLife.sl (8037/4) :=
  C4_trail_write_never_loosens cfgTiny mmktLife posLife (8037/4) 199000
    (by norm_num [posLife, mmktLife, infoBase]) (by norm_num [posLife])
    (by norm_num [trail_write, pyRound, bankers_round, cfgTiny, mmktLife, posLife, infoBase,
      min_def, max_def, buy_ne_sell, sell_ne_buy, abs_of_nonneg, Int.fract])


/-- C5 counterexample.  On a symbol with a 10-point broker stop distance and
an 8-point freeze distance (point 0.01), a proposal whose reference stop is
10 points away gets its stop clamped to 1999.85 — 0.15 from the live price
2000 — which is CLOSER than the claimed minimum distance
`(stops + freeze + cushion) · point = (10 + 8 + 5) · 0.01 = 0.23`: the code
clamps to `max(stops, freeze) + 5` points, not to their sum. -/
theorem C5_stop_distance_cex :
    prepare_copy_trade cfgStd Mode.mirror 1 10000 mktStops Side.buy 2000 (some (19999/10))
        none 1
      = PrepRes.order { side := Side.buy, volume := 5, price := 2000, sl := 39997/20, tp := 0 } ∧
    2000 - (39997/20 : ℚ)
      < (mktStops.info.stops_level + mktStops.info.freeze_level + 5) * mktStops.info.point := by
  constructor
  · norm_num [prepare_copy_trade, admit_stage, finish_order, shrink_fit, can_add_more_risk,
      remaining_daily_loss, compute_allowed_risk_usd, remaining_overall_loss, lots_for_risk,
      round_lot, sl_points_of, clamp_sl, synthetic_sl_points, pyTrunc, adapt_mult,
      side_transform, price_for, baseline_sl, tp_of, pyRound, bankers_round,
      cfgStd, cfgTiny, mktStops, mktBase, infoStops, infoBase, min_def, max_def,
      buy_ne_sell, sell_ne_buy, abs_of_nonneg, Int.fract]
  · norm_num [mktStops, mktBase, infoStops, infoBase]

/-- C5 (amended).  When `max(trade_stops_level, freeze_level)` is positive,
the stop produced by the clamp lies at least
`max(stops, freeze) · point + 5 · point` (NOT the sum of the two distances)
from the live price on the correct side; a stop that violates this distance
is pulled exactly to the boundary price, and a stop that respects it is left
untouched. -/
theorem C5_clamp_max_distance (info : SymInfo) (side : Side) (price sl : ℚ)
    (hpt : 0 < info.point) (hpos : 0 < max info.stops_level info.freeze_level) :
    (side = Side.buy →
      clamp_sl info side price sl
          ≤ price - (max info.stops_level info.freeze_level * info.point + 5 * info.point) ∧
      (price - (max info.stops_level info.freeze_level * info.point + 5 * info.point) < sl →
        clamp_sl info side price sl
          = price - (max info.stops_level info.freeze_level * info.point + 5 * info.point)) ∧
      (sl ≤ price - (max info.stops_level info.freeze_level * info.point + 5 * info.point) →
        clamp_sl info side price sl = sl)) ∧
    (side = Side.sell →
      price + (max info.stops_level info.freeze_level * info.point + 5 * info.point)
          ≤ clamp_sl info side price sl ∧
      (sl < price + (max info.stops_level info.freeze_level * info.point + 5 * info.point) →
        clamp_sl info side price sl
          = price + (max info.stops_level info.freeze_level * info.point + 5 * info.point)) ∧
      (price + (max info.stops_level info.freeze_level * info.point + 5 * info.point) ≤ sl →
        clamp_sl info side price sl = sl)) := by
  have hmd : 0 < max info.stops_level info.freeze_level * info.point := mul_pos hpos hpt
  constructor
  · intro hb
    subst hb
    simp only [clamp_sl, if_pos hmd]
    refine ⟨?_, fun hviol => if_pos hviol, fun hok => if_neg (not_lt.mpr hok)⟩
    split
    · exact le_rfl
    · exact not_lt.mp (by assumption)
  · intro hs
    subst hs
    simp only [clamp_sl, if_pos hmd]
    refine ⟨?_, fun hviol => if_pos hviol, fun hok => if_neg (not_lt.mpr hok)⟩
    split
    · exact le_rfl
    · exact not_lt.mp (by assumption)

/-- Witness for the amended C5 clamp bound at the counterexample instance:
the clamped stop 1999.85 is exactly the boundary `2000 − 0.15`. -/
theorem C5_clamp_max_distance_witness :
    clamp_sl infoStops Side.buy 2000 (19999/10)
        ≤ 2000 - (max infoStops.stops_level infoStops.freeze_level * infoStops.point
            + 5 * infoStops.point) ∧
    (2000 - (max infoStops.stops_level infoStops.freeze_level * infoStops.point
        + 5 * infoStops.point) < 19999/10 →
      clamp_sl infoStops Side.buy 2000 (19999/10)
        = 2000 - (max infoStops.stops_level infoStops.freeze_level * infoStops.point
            + 5 * infoStops.point)) ∧
    ((19999/10 : ℚ) ≤ 2000 - (max infoStops.stops_level infoStops.freeze_level * infoStops.point
        + 5 * infoStops.point) →
      clamp_sl infoStops Side.buy 2000 (19999/10) = 19999/10) :=
  (C5_clamp_max_distance infoStops Side.buy 2000 (19999/10)
    (by norm_num [infoStops, infoBase])
    (by norm_num [infoStops, infoBase, max_def])).1 rfl

/-- C6 counterexample.  With the percent cap DISABLED (the module default
`DAILY_LOSS_PCT = 0`) the code treats the percent budget as infinite and
returns 200 in the spec's scenario, while the claim's formula
`max(0, min(cap, pct·start) − used)` evaluates to 0: the formula as stated
does not cover the disabled-percent configuration. -/
theorem C6_pct_disabled_cex :
    remaining_daily_loss cfgTiny 10000 9700 = 200 ∧
    remaining_daily_spec cfgTiny 10000 9700 = 0 ∧
    remaining_daily_loss cfgTiny 10000 9700 ≠ remaining_daily_spec cfgTiny 10000 9700 := by
  refine ⟨?_, ?_, ?_⟩ <;>
    norm_num [remaining_daily_loss, remaining_daily_spec, cfgTiny, min_def, max_def]

/-- C6 (amended).  The claimed formula holds whenever the daily percent cap
is enabled (positive); with the percent cap disabled (`≤ 0`, the default)
the percent term drops out and the budget is the absolute cap alone.  The
scenario values hold: `dailyAbsoluteCap = 500`, `startEquity = 10000`,
`currentEquity = 9700` gives `remainingDaily = 200`, and with
`perTradeDailyFraction = 0.20` the per-trade cap from this term is 40. -/
theorem C6_remaining_daily_formula :
    (∀ (cfg : RiskCfg) (s e : ℚ), 0 < cfg.daily_loss_pct →
      remaining_daily_loss cfg s e = remaining_daily_spec cfg s e) ∧
    (∀ (cfg : RiskCfg) (s e : ℚ), cfg.daily_loss_pct ≤ 0 →
      remaining_daily_loss cfg s e = max 0 (cfg.daily_loss_limit - max 0 (s - e))) ∧
    remaining_daily_loss cfgTiny 10000 9700 = 200 ∧
    cfgTiny.mdl_fraction_per_trade * remaining_daily_loss cfgTiny 10000 9700 = 40 := by
  refine ⟨fun cfg s e h => ?_, fun cfg s e h => ?_, ?_, ?_⟩
  · simp only [remaining_daily_loss, remaining_daily_spec, if_pos h]
    ring_nf
  · simp only [remaining_daily_loss, if_neg (not_lt.mpr h)]
  · norm_num [remaining_daily_loss, cfgTiny, min_def, max_def]
  · norm_num [remaining_daily_loss, cfgTiny, min_def, max_def]

/-- Witness for the amended C6 formula: with a 10% percent cap enabled the
code agrees with the spec formula, and with the percent cap disabled the
budget is the absolute cap minus the loss used. -/
theorem C6_remaining_daily_formula_witness :
    remaining_daily_loss cfgPct 10000 9700 = remaining_daily_spec cfgPct 10000 9700 ∧
    remaining_daily_loss cfgTiny 10000 9700
      = max 0 (cfgTiny.daily_loss_limit - max 0 (10000 - 9700)) :=
  ⟨C6_remaining_daily_formula.1 cfgPct 10000 9700 (by norm_num [cfgPct, cfgTiny]),
   C6_remaining_daily_formula.2.1 cfgTiny 10000 9700 (by norm_num [cfgTiny])⟩

/-- C7 counterexample.  With allowed risk 2 USD, a 1000-point stop and
value-per-point 1 the risk-derived quantity is 0.002, which floors to 0 —
below the minimum lot — yet sizing does NOT fail: `round_lot` rounds it up
to the minimum lot 0.01 and `prepare_copy_trade` places an order (whose
risk, 10 USD, exceeds the allowed 2 USD). -/
theorem C7_roundup_cex :
    (⌊((2 : ℚ)/1000) / cfgC7.lot_step⌋ : ℚ) * cfgC7.lot_step < cfgC7.min_lot ∧
    round_lot cfgC7 (2/1000) = cfgC7.min_lot ∧
    prepare_copy_trade cfgC7 Mode.mirror 1 10000 mktBase Side.buy 2000 (some 1990) none 1
      = PrepRes.order { side := Side.buy, volume := 1/100, price := 2000, sl := 1990, tp := 0 } := by
  refine ⟨?_, ?_, ?_⟩ <;>
    norm_num [prepare_copy_trade, admit_stage, finish_order, shrink_fit, can_add_more_risk,
      remaining_daily_loss, compute_allowed_risk_usd, remaining_overall_loss, lots_for_risk,
      round_lot, sl_points_of, clamp_sl, synthetic_sl_points, pyTrunc, adapt_mult,
      side_transform, price_for, baseline_sl, tp_of, pyRound, bankers_round,
      cfgC7, cfgTiny, mktBase, infoBase, min_def, max_def, buy_ne_sell, sell_ne_buy]

/-- C7 (amended).  A quantity whose floor-to-step falls below the minimum
lot is clamped UP to the minimum lot by `round_lot` (it is never rejected at
this stage), and `round_lot`'s result is never below the minimum lot — so
the engine's `lots < MIN_LOT` sizing-failure check can only fire for the
degenerate zero quantity (non-positive risk, stop distance, or
value-per-point), not for an undersized rounded one. -/
theorem C7_round_lot_clamps_up :
    (∀ (cfg : RiskCfg) (v : ℚ),
      (⌊v / cfg.lot_step⌋ : ℚ) * cfg.lot_step < cfg.min_lot →
        round_lot cfg v = cfg.min_lot) ∧
    (∀ (cfg : RiskCfg) (v : ℚ), cfg.min_lot ≤ round_lot cfg v) := by
  constructor
  · intro cfg v h
    simp only [round_lot]
    exact max_eq_left ((min_le_right _ _).trans h.le)
  · intro cfg v
    exact le_max_left _ _

/-- Witness for the amended C7: the undersized quantity 0.002 is rounded up
to the 0.01 minimum lot. -/
theorem C7_round_lot_clamps_up_witness :
    round_lot cfgC7 (2/1000) = cfgC7.min_lot :=
  C7_round_lot_clamps_up.1 cfgC7 (2/1000) (by norm_num [cfgC7, cfgTiny])


/-- C8.  A proposal with no reference stop whose synthetic stop distance
resolves to 0 (volatility estimator returned 0 and the broker minimum stop
distance is 0) is never turned into an order: `lots_for_risk` returns 0,
which fails the minimum-lot check, and the evaluation returns no order. -/
theorem C8_zero_stop_distance_skips (cfg : RiskCfg) (mode : Mode) (rawMult ds : ℚ)
    (mkt : Market) (mside : Side) (entry : ℚ) (mtp : Option ℚ) (fuel : ℕ)
    (hmin : 0 < cfg.min_lot) (hatr : mkt.atr_points = 0)
    (hstops : mkt.info.stops_level = 0) :
    prepare_copy_trade cfg mode rawMult ds mkt mside entry none mtp fuel = PrepRes.skip := by
  have hsl : sl_points_of cfg mkt.info mkt.atr_points entry none = 0 := by
    simp [sl_points_of, synthetic_sl_points, hatr, hstops, pyTrunc]
  have hlots : ∀ R : ℚ, lots_for_risk cfg mkt.vpp R 0 = 0 := by
    intro R
    simp [lots_for_risk]
  simp only [prepare_copy_trade, hsl, hlots]
  split_ifs <;> rfl

/-- Witness for C8: with zero ATR and zero broker stop distance the default
configuration yields no order for a stop-less proposal. -/
theorem C8_zero_stop_distance_skips_witness :
    prepare_copy_trade cfgTiny Mode.mirror 1 10000 mktBase Side.buy 2000 none none 1
      = PrepRes.skip :=
  C8_zero_stop_distance_skips cfgTiny Mode.mirror 1 10000 mktBase Side.buy 2000 none 1
    (by norm_num [cfgTiny]) (by norm_num [mktBase]) (by norm_num [mktBase, infoBase])

/-- C9 evaluation at the failing input.  The master ticket 111 is already
mapped (to follower 222), yet processing another OPEN for it is NOT a no-op:
`on_open` never consults the mapping, so it sends a new order to the venue
and, once filled and linked (follower ticket 333), overwrites the mapping
entry — orphaning follower position 222. -/
theorem C9_duplicate_open_not_noop :
    map_get [(111, 222)] 111 = some 222 ∧
    (on_open [(111, 222)] 111
        (prepare_copy_trade cfgStd Mode.mirror 1 10000 mktBase Side.buy 2000 (some 1990) none 1)
        (some 333)).1
      = some { side := Side.buy, volume := 2/25, price := 2000, sl := 1990, tp := 0 } ∧
    (on_open [(111, 222)] 111
        (prepare_copy_trade cfgStd Mode.mirror 1 10000 mktBase Side.buy 2000 (some 1990) none 1)
        (some 333)).2
      = [(111, 333)] := by
  refine ⟨rfl, ?_, ?_⟩ <;>
    norm_num [on_open, map_get, map_set,
      prepare_copy_trade, admit_stage, finish_order, shrink_fit, can_add_more_risk,
      remaining_daily_loss, compute_allowed_risk_usd, remaining_overall_loss, lots_for_risk,
      round_lot, sl_points_of, clamp_sl, synthetic_sl_points, pyTrunc, adapt_mult,
      side_transform, price_for, baseline_sl, tp_of, pyRound, bankers_round,
      cfgStd, cfgTiny, mktBase, infoBase, min_def, max_def, buy_ne_sell, sell_ne_buy]

/-- C10.  When the quotes and the entry lie on the symbol's decimal grid,
the stop written by breakeven arming never crosses the market: for a long
position it is exactly `min(entry + spread, bid)` (hence at or below the
bid), and for a short position exactly `max(entry − spread, ask)` (hence at
or above the ask). -/
theorem C10_be_plus_within_market (mkt : MMkt) (pos : MPos) (kb ka ke : ℤ)
    (hb : mkt.bid = (kb : ℚ) / 10 ^ mkt.info.digits)
    (ha : mkt.ask = (ka : ℚ) / 10 ^ mkt.info.digits)
    (he : pos.price_open = (ke : ℚ) / 10 ^ mkt.info.digits) :
    (pos.ptype = Side.buy →
      be_plus_write mkt pos = min (pos.price_open + |mkt.ask - mkt.bid|) mkt.bid ∧
      be_plus_write mkt pos ≤ mkt.bid) ∧
    (pos.ptype = Side.sell →
      be_plus_write mkt pos = max (pos.price_open - |mkt.ask - mkt.bid|) mkt.ask ∧
      mkt.ask ≤ be_plus_write mkt pos) := by
  have hE : (0 : ℚ) < 10 ^ mkt.info.digits := by positivity
  have hspread : |mkt.ask - mkt.bid|
      = ((|ka - kb| : ℤ) : ℚ) / 10 ^ mkt.info.digits := by
    rw [ha, hb, div_sub_div_same, abs_div, abs_of_pos hE, Int.cast_abs]
    push_cast
    ring_nf
  constructor
  · intro hty
    have key : min (pos.price_open + |mkt.ask - mkt.bid|) mkt.bid
        = ((min (ke + |ka - kb|) kb : ℤ) : ℚ) / 10 ^ mkt.info.digits := by
      rw [hspread, he, hb, div_add_div_same, min_div_div_right hE.le]
      push_cast
      ring_nf
    have hw : be_plus_write mkt pos
        = min (pos.price_open + |mkt.ask - mkt.bid|) mkt.bid := by
      simp only [be_plus_write, hty]
      rw [key, pyRound_grid]
    refine ⟨hw, ?_⟩
    rw [hw]
    exact min_le_right _ _
  · intro hty
    have key : max (pos.price_open - |mkt.ask - mkt.bid|) mkt.ask
        = ((max (ke - |ka - kb|) ka : ℤ) : ℚ) / 10 ^ mkt.info.digits := by
      rw [hspread, he, ha, div_sub_div_same, max_div_div_right hE.le]
      push_cast
      ring_nf
    have hw : be_plus_write mkt pos
        = max (pos.price_open - |mkt.ask - mkt.bid|) mkt.ask := by
      simp only [be_plus_write, hty]
      rw [key, pyRound_grid]
    refine ⟨hw, ?_⟩
    rw [hw]
    exact le_max_right _ _

/-- Witness for C10 at the lifecycle scenario: the breakeven stop written for
the long position is 2000.02 = min(2000 + 0.02, 2010), at or below the bid. -/
theorem C10_be_plus_within_market_witness :
    be_plus_write mmktLife posLife
        = min (posLife.price_open + |mmktLife.ask - mmktLife.bid|) mmktLife.bid ∧
    be_plus_write mmktLife posLife ≤ mmktLife.bid :=
  (C10_be_plus_within_market mmktLife posLife 201000 201002 200000
    (by norm_num [mmktLife, infoBase]) (by norm_num [mmktLife, infoBase])
    (by norm_num [posLife, mmktLife, infoBase])).1 rfl

end RiskEngine
